import Mathlib

/-!
Shallow embedding of the producer/consumer core of `src/Funny.py`
(the philosopher clock): the hour-to-label mapping, the phrase
formatting, the TTS queue with its worker loop, and the tick/mute
operations of the `PhilosopherClock` class.
-/

namespace PhilClock

/-- The fixed ordered list of 12 philosopher labels (`PHILOSOPHERS`,
src/Funny.py lines 31-44). -/
def PHILOSOPHERS : List String :=
  ["Leibniz", "Kant", "Hegel", "Fichte", "Schopenhauer", "Nietzsche",
   "Marx", "Engels", "Herder", "Lessing", "Heidegger", "Habermas"]

/-- The template mapping (`PHRASES`, src/Funny.py lines 47-60), embedded as an
association list with the dict's insertion order. -/
def PHRASES : List (String × String) :=
  [("Leibniz", "Ah, the best of all possible times: {h} hours, {m} minutes and {s} seconds."),
   ("Kant", "By duty I declare: it is {h} hours, {m} minutes and {s} seconds."),
   ("Hegel", "The time is (in dialectical motion) {h}:{m}:{s}."),
   ("Fichte", "Consciousness proclaims: {h} hours, {m} minutes, {s} seconds."),
   ("Schopenhauer", "Time, the will's annoying companion: {h}h {m}m {s}s."),
   ("Nietzsche", "Behold the hour: {h} hours, {m} minutes, {s} seconds — become who you are."),
   ("Marx", "Workers of the world note the time: {h}:{m}:{s}."),
   ("Engels", "Material conditions indicate: {h} hours {m} minutes {s} seconds."),
   ("Herder", "Time tells culture: it's {h} hours and {m} minutes, {s} seconds."),
   ("Lessing", "In the theatre of life — the clock says {h}:{m}:{s}."),
   ("Heidegger", "Time is (being): {h} hours, {m} minutes, {s} seconds."),
   ("Habermas", "Communicative act: the time is {h}:{m}:{s}.")]

/-- The fallback template used by `PHRASES.get(phil, ...)`
(src/Funny.py line 100). -/
def defaultTemplate : String := "It's {h}:{m}:{s}."

/-- `hour_to_philosopher(hour24)` (src/Funny.py lines 87-95): map a 24-hour
hour to one of the 12 philosophers.  The Python list index is always in range
(`(h12 - 1) % 12 < 12`), so the `getD` default is never reached. -/
def hour_to_philosopher (hour24 : Nat) : String :=
  let h12 := hour24 % 12
  let h12 := if h12 == 0 then 12 else h12
  let idx := (h12 - 1) % 12
  PHILOSOPHERS.getD idx ""

/-- Python's `str.zfill(width)` for non-negative numeric strings: left-pad
with zeros up to `width`. -/
def zfill (width : Nat) (s : String) : String :=
  if width ≤ s.length then s
  else String.mk (List.replicate (width - s.length) '0') ++ s

/-- Scanner for Python's `template.format(h=..., m=..., s=...)` restricted to
the placeholders `\x7bh\x7d`, `\x7bm\x7d`, `\x7bs\x7d` — the only ones
occurring in `PHRASES` and in the fallback template. -/
def substAux (hs ms ss : List Char) : List Char → List Char
  | [] => []
  | '{' :: 'h' :: '}' :: rest => hs ++ substAux hs ms ss rest
  | '{' :: 'm' :: '}' :: rest => ms ++ substAux hs ms ss rest
  | '{' :: 's' :: '}' :: rest => ss ++ substAux hs ms ss rest
  | c :: rest => c :: substAux hs ms ss rest

/-- `template.format(h=hs, m=ms, s=ss)` on a template string. -/
def pyFormat (t hs ms ss : String) : String :=
  String.mk (substAux hs.data ms.data ss.data t.data)

/-- `format_time_phrase(h, m, s)` (src/Funny.py lines 97-102): the
philosopher's line for the given 24-hour time. -/
def format_time_phrase (h m s : Nat) : String :=
  let phil := hour_to_philosopher h
  let template := (PHRASES.lookup phil).getD defaultTemplate
  phil ++ " says: " ++ pyFormat template (toString h) (zfill 2 (toString m)) (zfill 2 (toString s))

/-- Hour-hand angle in degrees (src/Funny.py lines 180-181):
`hour_in_12 = (h % 12) + m / 60.0; hour_angle = hour_in_12 * 30`. -/
def hour_angle (h m : Nat) : ℚ :=
  (((h % 12 : Nat) : ℚ) + (m : ℚ) / 60) * 30

/-- Minute-hand angle in degrees (src/Funny.py line 183). -/
def minute_angle (m s : Nat) : ℚ :=
  ((m : ℚ) + (s : ℚ) / 60) * 6

/-- Second-hand angle in degrees (src/Funny.py line 184). -/
def second_angle (s : Nat) : ℚ :=
  (s : ℚ) * 6

/-- A Python `queue.Queue`: `maxsize` (0 means unbounded, Python's default)
and the FIFO contents.  Items are `Option String` because the sentinel
`None` is enqueued alongside phrase strings. -/
structure TTSQueue where
  maxsize : Nat
  items : List (Option String)
deriving DecidableEq

/-- `queue.Queue()` as constructed at src/Funny.py line 64: no capacity
bound given, so `maxsize = 0` (unbounded). -/
def tts_queue : TTSQueue := ⟨0, []⟩

/-- Python's `Queue.put_nowait(x)`: raises `queue.Full` (modelled as `none`)
exactly when `0 < maxsize ≤ len(items)`; otherwise appends at the tail. -/
def put_nowait (q : TTSQueue) (x : Option String) : Option TTSQueue :=
  if 0 < q.maxsize ∧ q.maxsize ≤ q.items.length then none
  else some { q with items := q.items ++ [x] }

/-- The mutable state of `PhilosopherClock` relevant to speech: the shared
TTS queue, the `speak_var` checkbox value, and `last_spoken_second`
(initialised to -1 at src/Funny.py line 142, hence `Int`). -/
structure ClockState where
  queue : TTSQueue
  speak_var : Bool
  last_spoken_second : Int
deriving DecidableEq

/-- The notice text enqueued by `mute_now` (src/Funny.py line 241). -/
def muted_notice : String := "Muted. Philosophy will be silent, temporarily."

/-- The speech part of `update_clock` (src/Funny.py lines 211-229), at a tick
whose wall-clock reading is `h:m:s`: if `speak_var` is set and the current
second differs from `last_spoken_second`, format the phrase and
`put_nowait` it, passing on `queue.Full` (the `try/except` at lines
222-225), then record the second.  Hand drawing has no state effect here. -/
def update_clock (st : ClockState) (h m s : Nat) : ClockState :=
  if st.speak_var then
    if (s : Int) ≠ st.last_spoken_second then
      let phrase := format_time_phrase h m s
      let q' := (put_nowait st.queue (some phrase)).getD st.queue
      { st with queue := q', last_spoken_second := (s : Int) }
    else st
  else st

/-- `mute_now` (src/Funny.py lines 231-242): drain every queued item with
`get_nowait`, then, if `speak_var` is still set, `put_nowait` the muted
notice (which cannot raise `Full` on the just-drained queue, as
`0 < maxsize ≤ 0` is impossible), and finally clear `speak_var`. -/
def mute_now (st : ClockState) : ClockState :=
  let drained : TTSQueue := { st.queue with items := [] }
  if st.speak_var then
    { st with queue := (put_nowait drained (some muted_notice)).getD drained,
              speak_var := false }
  else
    { st with queue := drained, speak_var := false }

/-- The control state of the `tts_worker` loop (src/Funny.py lines 70-84):
between iterations (`idle`), inside the `say`/`runAndWait` call
(`speaking`), or after `break` on the sentinel (`stopped`). -/
inductive WPhase where
  | idle
  | speaking (text : String)
  | stopped
deriving DecidableEq

/-- A configuration of the announcer system: worker phase, queue contents,
and histories of enqueued items, dequeued items, and completed speak
calls (in order). -/
structure WorkerState where
  phase : WPhase
  q : List (Option String)
  enqd : List (Option String)
  deqd : List (Option String)
  spoken : List String
deriving DecidableEq

/-- The texts actually in flight at a phase: one while `speaking`, none
otherwise (the loop is the only consumer). -/
def inFlight : WPhase → List String
  | .speaking t => [t]
  | _ => []

/-- The real texts (non-sentinel items) of a queue segment, in order. -/
def realTexts (l : List (Option String)) : List String :=
  l.filterMap id

/-- Small-step semantics of the announcer (src/Funny.py lines 70-84 plus the
producers' `put_nowait` calls): a producer may append any item; the idle
worker dequeues the head (`q.get()`), breaking on the sentinel `None` and
otherwise entering the speak call; the speak call returns to the loop top
whether `say`/`runAndWait` succeeds or raises (the `except` at line 79
catches and continues). -/
inductive WStep : WorkerState → WorkerState → Prop where
  | enq (s : WorkerState) (x : Option String) :
      WStep s { s with q := s.q ++ [x], enqd := s.enqd ++ [x] }
  | deq_text (s : WorkerState) (t : String) (rest : List (Option String))
      (hp : s.phase = .idle) (hq : s.q = some t :: rest) :
      WStep s { s with phase := .speaking t, q := rest, deqd := s.deqd ++ [some t] }
  | deq_sentinel (s : WorkerState) (rest : List (Option String))
      (hp : s.phase = .idle) (hq : s.q = none :: rest) :
      WStep s { s with phase := .stopped, q := rest, deqd := s.deqd ++ [none] }
  | speak_ok (s : WorkerState) (t : String) (hp : s.phase = .speaking t) :
      WStep s { s with phase := .idle, spoken := s.spoken ++ [t] }
  | speak_caught (s : WorkerState) (t : String) (hp : s.phase = .speaking t) :
      WStep s { s with phase := .idle, spoken := s.spoken ++ [t] }

/-- The initial configuration: worker just started on the empty queue
(src/Funny.py line 84). -/
def winit : WorkerState := ⟨.idle, [], [], [], []⟩

/-- Configurations reachable from `winit` by announcer steps. -/
inductive WReachable : WorkerState → Prop where
  | init : WReachable winit
  | step {s s' : WorkerState} : WReachable s → WStep s s' → WReachable s'

/-- The inductive invariant of the announcer: the queue is the enqueue
history minus the dequeue history; before the sentinel is consumed every
dequeued real text has been spoken or is the unique one in flight, in
dequeue order; once stopped, the dequeue history ends at the sentinel and
exactly the real texts before it were spoken. -/
def WInv (s : WorkerState) : Prop :=
  s.enqd = s.deqd ++ s.q ∧
  (match s.phase with
   | .stopped => ∃ d, s.deqd = d ++ [none] ∧ none ∉ d ∧ s.spoken = realTexts d
   | ph => none ∉ s.deqd ∧ s.spoken ++ inFlight ph = realTexts s.deqd)

end PhilClock

namespace PhilClock

theorem winv_init : WInv winit := by
  refine ⟨rfl, ?_⟩
  simp [winit, WInv, realTexts, inFlight]

theorem winv_step {s s' : WorkerState} (h2 : WInv s) (hstep : WStep s s') : WInv s' := by
  obtain ⟨h1, hph⟩ := h2
  cases hstep with
  | enq x =>
      refine ⟨by simp [h1], ?_⟩
      simp only [WInv]
      cases hp : s.phase <;> rw [hp] at hph <;> simpa using hph
  | deq_text t rest hp hq =>
      rw [hp] at hph
      obtain ⟨hnone, hspk⟩ := hph
      refine ⟨by simp [h1, hq], ?_, ?_⟩
      · simp [hnone]
      · simp only [inFlight, List.append_nil] at hspk ⊢
        simp [realTexts, List.filterMap_append, ← hspk, realTexts] at hspk ⊢
        simpa [realTexts] using hspk
  | deq_sentinel rest hp hq =>
      rw [hp] at hph
      obtain ⟨hnone, hspk⟩ := hph
      refine ⟨by simp [h1, hq], ?_⟩
      exact ⟨s.deqd, rfl, hnone, by simpa [inFlight] using hspk⟩
  | speak_ok t hp =>
      rw [hp] at hph
      obtain ⟨hnone, hspk⟩ := hph
      refine ⟨by simpa using h1, ?_, ?_⟩
      · simpa using hnone
      · simpa [inFlight] using hspk
  | speak_caught t hp =>
      rw [hp] at hph
      obtain ⟨hnone, hspk⟩ := hph
      refine ⟨by simpa using h1, ?_, ?_⟩
      · simpa using hnone
      · simpa [inFlight] using hspk

theorem wreachable_winv {s : WorkerState} (h : WReachable s) : WInv s := by
  induction h with
  | init => exact winv_init
  | step _ hstep ih => exact winv_step ih hstep

theorem fifo_of_winv {s : WorkerState} (hinv : WInv s) :
    ∃ rest, realTexts s.enqd = s.spoken ++ rest := by
  obtain ⟨h1, hph⟩ := hinv
  have henq : realTexts s.enqd = realTexts s.deqd ++ realTexts s.q := by
    rw [h1]; simp [realTexts]
  cases hp : s.phase
  case stopped =>
      rw [hp] at hph
      obtain ⟨d, hd, hnd, hs⟩ := hph
      refine ⟨realTexts s.q, ?_⟩
      rw [henq, hd, hs]
      simp [realTexts]
  case idle =>
      rw [hp] at hph
      obtain ⟨hnone, hspk⟩ := hph
      refine ⟨realTexts s.q, ?_⟩
      rw [henq, ← hspk]
      simp [inFlight]
  case speaking t =>
      rw [hp] at hph
      obtain ⟨hnone, hspk⟩ := hph
      refine ⟨[t] ++ realTexts s.q, ?_⟩
      rw [henq, ← hspk]
      simp [inFlight]

theorem stopped_terminal {s s' : WorkerState} (hstep : WStep s s')
    (hp : s.phase = WPhase.stopped) :
    s'.phase = WPhase.stopped ∧ s'.spoken = s.spoken := by
  cases hstep with
  | enq x => exact ⟨hp, rfl⟩
  | deq_text t rest hp' hq => rw [hp] at hp'; cases hp'
  | deq_sentinel rest hp' hq => rw [hp] at hp'; cases hp'
  | speak_ok t hp' => rw [hp] at hp'; cases hp'
  | speak_caught t hp' => rw [hp] at hp'; cases hp'

theorem inFlight_le_one (ph : WPhase) : (inFlight ph).length ≤ 1 := by
  cases ph <;> simp [inFlight]

/-- C2: in every configuration of the announcer worker reachable from start,
the completed speak calls are a prefix of the real texts in enqueue order
(FIFO), at most one speak invocation is in flight, once the sentinel has
been dequeued (`stopped`) no step changes the phase or performs another
speak, and the worker invariant holds: the queue is the enqueue history
minus the dequeue history, `idle` dequeues of real text lead to `speaking`,
`speaking` returns to `idle` on success or caught failure, and an `idle`
dequeue of the sentinel leads to the terminal `stopped`. -/
theorem announcer_state_machine (s : WorkerState) (hr : WReachable s) :
    (∃ rest, realTexts s.enqd = s.spoken ++ rest) ∧
    (inFlight s.phase).length ≤ 1 ∧
    (∀ s', WStep s s' → s.phase = WPhase.stopped →
       s'.phase = WPhase.stopped ∧ s'.spoken = s.spoken) ∧
    WInv s :=
  ⟨fifo_of_winv (wreachable_winv hr), inFlight_le_one s.phase,
   fun _ hstep hp => stopped_terminal hstep hp, wreachable_winv hr⟩

/-- Witness for C2 at the initial configuration. -/
theorem announcer_state_machine_witness :
    (∃ rest, realTexts winit.enqd = winit.spoken ++ rest) ∧
    (inFlight winit.phase).length ≤ 1 ∧
    (∀ s', WStep winit s' → winit.phase = WPhase.stopped →
       s'.phase = WPhase.stopped ∧ s'.spoken = winit.spoken) ∧
    WInv winit :=
  announcer_state_machine winit WReachable.init

/-- C1 counterexample: at hour 1 the code returns `PHILOSOPHERS[0]`
("Leibniz"), not the element at index `1 % 12 = 1` ("Kant") that the claim
prescribes for hours whose value mod 12 is nonzero. -/
theorem hour_label_claimed_index_counterexample :
    hour_to_philosopher 1 = "Leibniz" ∧
    PHILOSOPHERS.getD (1 % 12) "" = "Kant" ∧
    hour_to_philosopher 1 ≠ PHILOSOPHERS.getD (1 % 12) "" := by decide

/-- C1 amended: for every hour 0-23 the label is the element at index
`((hour % 12) + 11) % 12`, i.e. index `(hour % 12) - 1` when
`hour % 12 ≠ 0`, and index 11 (the 12th label, Habermas) when
`hour % 12 = 0` (hours 0 and 12); the mapping is a total function, hence
deterministic, over 0-23. -/
theorem hour_label_index_amended (h : Nat) (hh : h < 24) :
    hour_to_philosopher h = PHILOSOPHERS.getD ((h % 12 + 11) % 12) "" ∧
    (h % 12 = 0 → hour_to_philosopher h = PHILOSOPHERS.getD 11 "") := by
  have H : ∀ h' < 24, hour_to_philosopher h' = PHILOSOPHERS.getD ((h' % 12 + 11) % 12) "" ∧
      (h' % 12 = 0 → hour_to_philosopher h' = PHILOSOPHERS.getD 11 "") := by decide
  exact H h hh

/-- Witness for the amended C1 at hour 13. -/
theorem hour_label_index_amended_witness :
    hour_to_philosopher 13 = PHILOSOPHERS.getD ((13 % 12 + 11) % 12) "" ∧
    (13 % 12 = 0 → hour_to_philosopher 13 = PHILOSOPHERS.getD 11 "") :=
  hour_label_index_amended 13 (by decide)

/-- C3: `format_time_phrase` is a pure function of `(h, m, s)` (same inputs
give the same string); the minute and second substitutions are the
two-character zero-padded decimal strings (m=5 gives "05"), the hour
substitution is the unpadded decimal string (h=9 gives "9", h=0 gives
"0"), and the result is the label followed by " says: " followed by the
filled template. -/
theorem format_time_phrase_props (h m s : Nat) (hm : m < 60) (hs : s < 60) :
    format_time_phrase h m s =
      hour_to_philosopher h ++ " says: " ++
        pyFormat ((PHRASES.lookup (hour_to_philosopher h)).getD defaultTemplate)
          (toString h) (zfill 2 (toString m)) (zfill 2 (toString s)) ∧
    (zfill 2 (toString m)).length = 2 ∧
    (zfill 2 (toString s)).length = 2 ∧
    zfill 2 (toString (5 : Nat)) = "05" ∧
    toString (9 : Nat) = "9" ∧
    toString (0 : Nat) = "0" ∧
    (∀ h' m' s', h' = h → m' = m → s' = s →
        format_time_phrase h' m' s' = format_time_phrase h m s) ∧
    (∃ rest, format_time_phrase h m s = (hour_to_philosopher h ++ " says: ") ++ rest) := by
  have H2 : ∀ n < 60, (zfill 2 (toString n)).length = 2 := by decide
  refine ⟨rfl, H2 m hm, H2 s hs, by decide, by decide, by decide, ?_, ?_⟩
  · intro h' m' s' e1 e2 e3; rw [e1, e2, e3]
  · exact ⟨_, rfl⟩

/-- Witness for C3 at (9, 5, 7). -/
theorem format_time_phrase_props_witness :
    format_time_phrase 9 5 7 =
      hour_to_philosopher 9 ++ " says: " ++
        pyFormat ((PHRASES.lookup (hour_to_philosopher 9)).getD defaultTemplate)
          (toString 9) (zfill 2 (toString 5)) (zfill 2 (toString 7)) ∧
    (zfill 2 (toString 5)).length = 2 ∧
    (zfill 2 (toString 7)).length = 2 ∧
    zfill 2 (toString (5 : Nat)) = "05" ∧
    toString (9 : Nat) = "9" ∧
    toString (0 : Nat) = "0" ∧
    (∀ h' m' s', h' = 9 → m' = 5 → s' = 7 →
        format_time_phrase h' m' s' = format_time_phrase 9 5 7) ∧
    (∃ rest, format_time_phrase 9 5 7 = (hour_to_philosopher 9 ++ " says: ") ++ rest) :=
  format_time_phrase_props 9 5 7 (by decide) (by decide)

/-- C4: `hour_to_philosopher` is 12-periodic on 0-11, always returns one of
the 12 fixed labels on 0-23, and hours 0 and 12 both map to the 12th
label, Habermas. -/
theorem labelFor_periodicity :
    (∀ h, h < 12 → hour_to_philosopher h = hour_to_philosopher (h + 12)) ∧
    (∀ h, h < 24 → hour_to_philosopher h ∈ PHILOSOPHERS) ∧
    hour_to_philosopher 0 = hour_to_philosopher 12 ∧
    hour_to_philosopher 0 = PHILOSOPHERS.getD 11 "" ∧
    PHILOSOPHERS.getD 11 "" = "Habermas" := by
  refine ⟨by decide, by decide, by decide, by decide, by decide⟩

/-- Witness for C4 at hours 3 and 5. -/
theorem labelFor_periodicity_witness :
    hour_to_philosopher 3 = hour_to_philosopher 15 ∧
    hour_to_philosopher 5 ∈ PHILOSOPHERS :=
  ⟨labelFor_periodicity.1 3 (by decide), labelFor_periodicity.2.1 5 (by decide)⟩

end PhilClock

namespace PhilClock

/-- C5 counterexample: enqueue 3 items with speech enabled and call
`mute_now`; the code drains the queue but then enqueues the muted notice,
so the queue is not empty afterwards — it holds exactly that notice. -/
theorem mute_now_empty_queue_counterexample :
    (mute_now ⟨⟨0, [some "a", some "b", some "c"]⟩, true, -1⟩).queue.items ≠ [] ∧
    (mute_now ⟨⟨0, [some "a", some "b", some "c"]⟩, true, -1⟩).queue.items =
      [some muted_notice] := by decide

/-- C5 amended: after `mute_now` the enabled flag is false and the queue
holds exactly the single muted notice if speech was previously enabled
(empty otherwise); and a tick while the flag is false leaves the state
unchanged — in particular it never enqueues. -/
theorem mute_now_amended (st st' : ClockState) (h m s : Nat)
    (hd : st'.speak_var = false) :
    (mute_now st).speak_var = false ∧
    (mute_now st).queue.items = (if st.speak_var then [some muted_notice] else []) ∧
    update_clock st' h m s = st' := by
  have hput : put_nowait { st.queue with items := ([] : List (Option String)) }
      (some muted_notice) = some { st.queue with items := [some muted_notice] } := by
    unfold put_nowait
    rw [if_neg (by simp <;> omega)]
    simp
  refine ⟨?_, ?_, ?_⟩
  · cases hv : st.speak_var <;> simp [mute_now, hv]
  · cases hv : st.speak_var <;> simp [mute_now, hv, hput]
  · simp [update_clock, hd]

/-- Witness for the amended C5 at a concrete muted and a concrete disabled
state. -/
theorem mute_now_amended_witness :
    (mute_now ⟨⟨0, [some "a"]⟩, true, -1⟩).speak_var = false ∧
    (mute_now ⟨⟨0, [some "a"]⟩, true, -1⟩).queue.items =
      (if (⟨⟨0, [some "a"]⟩, true, -1⟩ : ClockState).speak_var
       then [some muted_notice] else []) ∧
    update_clock ⟨⟨0, []⟩, false, -1⟩ 1 2 3 = ⟨⟨0, []⟩, false, -1⟩ :=
  mute_now_amended ⟨⟨0, [some "a"]⟩, true, -1⟩ ⟨⟨0, []⟩, false, -1⟩ 1 2 3 rfl

/-- C6: the hand angles computed by `draw_hands` are
`(hour mod 12 + minute/60) * 30`, `(minute + second/60) * 6` and
`second * 6` degrees, with the anchor values hourAngle(0,0,0)=0,
hourAngle(6,0,0)=180, minuteAngle(30,0)=180 and secondAngle(45)=270. -/
theorem hand_angles_spec (h m s : Nat) ( _hh : h < 24) ( _hm : m < 60) ( _hs : s < 60) :
    hour_angle h m = (((h % 12 : Nat) : ℚ) + (m : ℚ) / 60) * 30 ∧
    minute_angle m s = ((m : ℚ) + (s : ℚ) / 60) * 6 ∧
    second_angle s = (s : ℚ) * 6 ∧
    hour_angle 0 0 = 0 ∧ hour_angle 6 0 = 180 ∧
    minute_angle 30 0 = 180 ∧ second_angle 45 = 270 := by
  refine ⟨rfl, rfl, rfl, ?_, ?_, ?_, ?_⟩ <;>
    norm_num [hour_angle, minute_angle, second_angle]

/-- Witness for C6 at the reading (6, 0, 0). -/
theorem hand_angles_spec_witness :
    hour_angle 6 0 = (((6 % 12 : Nat) : ℚ) + (0 : ℚ) / 60) * 30 ∧
    minute_angle 0 0 = ((0 : ℚ) + (0 : ℚ) / 60) * 6 ∧
    second_angle 0 = (0 : ℚ) * 6 ∧
    hour_angle 0 0 = 0 ∧ hour_angle 6 0 = 180 ∧
    minute_angle 30 0 = 180 ∧ second_angle 45 = 270 :=
  hand_angles_spec 6 0 0 (by norm_num) (by norm_num) (by norm_num)

/-- C7: on a tick with speech enabled and a fresh second, `update_clock`
attempts a non-blocking enqueue of the formatted phrase and records the
second; when `put_nowait` raises `queue.Full` the phrase is dropped with
no retry (queue unchanged) and the tick still completes, returning a
state — the function is total, so nothing blocks or escapes. -/
theorem update_clock_speaks (st : ClockState) (h m s : Nat)
    (he : st.speak_var = true) (hn : (s : Int) ≠ st.last_spoken_second) :
    update_clock st h m s =
      { st with
        queue :=
          if 0 < st.queue.maxsize ∧ st.queue.maxsize ≤ st.queue.items.length
          then st.queue
          else { st.queue with
                 items := st.queue.items ++ [some (format_time_phrase h m s)] },
        last_spoken_second := (s : Int) } := by
  by_cases hc : 0 < st.queue.maxsize ∧ st.queue.maxsize ≤ st.queue.items.length
  · simp [update_clock, he, hn, put_nowait, hc]
  · simp [update_clock, he, hn, put_nowait, hc]

/-- Witness for C7 on a full bounded queue (capacity 1, one item): the
phrase is dropped and `last_spoken_second` still becomes 7. -/
theorem update_clock_speaks_witness :
    update_clock ⟨⟨1, [some "x"]⟩, true, -1⟩ 9 5 7 =
      { (⟨⟨1, [some "x"]⟩, true, -1⟩ : ClockState) with
        queue :=
          if 0 < (1 : Nat) ∧ (1 : Nat) ≤ [some "x"].length
          then (⟨1, [some "x"]⟩ : TTSQueue)
          else ⟨1, [some "x"] ++ [some (format_time_phrase 9 5 7)]⟩,
        last_spoken_second := ((7 : Nat) : Int) } :=
  update_clock_speaks ⟨⟨1, [some "x"]⟩, true, -1⟩ 9 5 7 rfl (by decide)

/-- C8: when the template lookup finds no entry for a label, the
`getD`-style lookup yields the generic default template instead of
failing; and `format_time_phrase` always returns the label-prefixed fill
of whatever the (never-raising) lookup produced, for every input. -/
theorem template_fallback (label : String) (h m s : Nat)
    (hmiss : PHRASES.lookup label = none) :
    (PHRASES.lookup label).getD defaultTemplate = defaultTemplate ∧
    format_time_phrase h m s =
      hour_to_philosopher h ++ " says: " ++
        pyFormat ((PHRASES.lookup (hour_to_philosopher h)).getD defaultTemplate)
          (toString h) (zfill 2 (toString m)) (zfill 2 (toString s)) :=
  ⟨by simp [hmiss], rfl⟩

/-- Witness for C8 with the absent label "Socrates" and the time 1:02:03. -/
theorem template_fallback_witness :
    (PHRASES.lookup "Socrates").getD defaultTemplate = defaultTemplate ∧
    format_time_phrase 1 2 3 =
      hour_to_philosopher 1 ++ " says: " ++
        pyFormat ((PHRASES.lookup (hour_to_philosopher 1)).getD defaultTemplate)
          (toString 1) (zfill 2 (toString 2)) (zfill 2 (toString 3)) :=
  template_fallback "Socrates" 1 2 3 (by decide)

/-- C9: the TTS queue is constructed unbounded (`maxsize = 0`), so
`put_nowait` always succeeds — it never raises `queue.Full` — and on an
unbounded-queue state a speaking tick always appends the phrase: the
silent-drop branch of `update_clock` is unreachable. -/
theorem tts_queue_unbounded_no_drop :
    tts_queue.maxsize = 0 ∧
    (∀ (items : List (Option String)) (x : Option String),
        put_nowait ⟨0, items⟩ x = some ⟨0, items ++ [x]⟩) ∧
    (∀ (st : ClockState) (h m s : Nat),
        st.queue.maxsize = 0 → st.speak_var = true →
        (s : Int) ≠ st.last_spoken_second →
        (update_clock st h m s).queue.items =
          st.queue.items ++ [some (format_time_phrase h m s)]) := by
  refine ⟨rfl, ?_, ?_⟩
  · intro items x
    simp [put_nowait]
  · intro st h m s hmax he hn
    simp [update_clock, he, hn, put_nowait, hmax]

/-- Witness for C9: starting from the actual initial queue, the tick at
9:05:07 enqueues the phrase. -/
theorem tts_queue_unbounded_no_drop_witness :
    (update_clock ⟨⟨0, []⟩, true, -1⟩ 9 5 7).queue.items =
      (⟨⟨0, []⟩, true, -1⟩ : ClockState).queue.items ++
        [some (format_time_phrase 9 5 7)] :=
  tts_queue_unbounded_no_drop.2.2 ⟨⟨0, []⟩, true, -1⟩ 9 5 7 rfl rfl (by decide)

/-- C10: every one of the 12 philosopher labels has an entry in `PHRASES`,
and for every hour 0-23 the template `format_time_phrase` selects is that
philosopher's own (it exists and differs from the fallback), so the
fallback template is never used at real hours. -/
theorem philosophers_have_templates :
    (∀ p ∈ PHILOSOPHERS, (PHRASES.lookup p).isSome = true) ∧
    (∀ h, h < 24 → (PHRASES.lookup (hour_to_philosopher h)).isSome = true ∧
        (PHRASES.lookup (hour_to_philosopher h)).getD defaultTemplate ≠ defaultTemplate) := by
  refine ⟨by decide, by decide⟩

/-- Witness for C10 at the label "Kant" and hour 3. -/
theorem philosophers_have_templates_witness :
    (PHRASES.lookup "Kant").isSome = true ∧
    (PHRASES.lookup (hour_to_philosopher 3)).isSome = true ∧
    (PHRASES.lookup (hour_to_philosopher 3)).getD defaultTemplate ≠ defaultTemplate :=
  ⟨philosophers_have_templates.1 "Kant" (by decide),
   philosophers_have_templates.2 3 (by decide)⟩

end PhilClock
